import Mathlib

/- A shallow embedding of the sheets-filter engine of the univer repository
   (packages/sheets-filter/src/models/filter-model.ts), together with proofs
   about its operations. Stateful methods are embedded as pure functions that
   take the pre-state and return the post-state; a method that can throw
   returns the post-state together with an optional error message, the
   post-state being the partially mutated one when the method throws. -/

/-- Cell values as read from the worksheet: string, number or boolean.
    Numbers are modelled as integers. -/
inductive CellValue where
  | str (s : String)
  | num (n : Int)
  | boolean (b : Bool)
deriving DecidableEq

/-- JS template stringification of a cell value, used when a non-string cell
    value is compared against the string allow list. -/
def cellValueToString : CellValue → String
  | .str s => s
  | .num n => toString n
  | .boolean b => if b then "true" else "false"

/-- A filter function receives a cell value (none models an undefined cell)
    and decides whether the row is kept. Mirrors FilterFn of filter-model.ts. -/
abbrev FilterFn := Option CellValue → Bool

/-- Modelled from the spec: one custom predicate record of the persisted
    format, with an operator key and a comparison operand. The predicate
    library itself (custom-filters.ts) is not part of the sources; predicate
    compilation is abstracted by a parameter below. -/
structure ICustomFilter where
  operator : Option String := none
  val : CellValue := .str ""
deriving DecidableEq

/-- Modelled from the spec: the customFilters record of the persisted format.
    A set and field signals AND combination of two predicates. -/
structure ICustomFilters where
  and : Bool := false
  customFilters : List ICustomFilter := []
deriving DecidableEq

/-- Modelled from the spec: a serialized filter column record. The colId field
    is the column offset; a present filters field means the values kind, a
    present customFilters field means the custom kind. -/
structure IFilterColumn where
  colId : Nat := 0
  filters : Option (List String) := none
  customFilters : Option ICustomFilters := none
deriving DecidableEq

/-- A rectangular sheet range, as IRange of the core package. Ranges are
    well-formed: startRow is at most endRow and startColumn at most
    endColumn, so natural subtraction agrees with JS subtraction where the
    code computes endColumn minus startColumn. -/
structure IRange where
  startRow : Nat
  endRow : Nat
  startColumn : Nat
  endColumn : Nat
deriving DecidableEq

/-- Modelled from the spec: the persisted auto filter record. -/
structure IAutoFilter where
  ref : IRange
  filterColumns : Option (List IFilterColumn) := none
  cachedFilteredOut : Option (List Nat) := none
deriving DecidableEq

/-- The values-kind factory filterByValuesFnFactory of filter-model.ts:
    membership of the (stringified when not a string) cell value in the allow
    list; an undefined cell value never matches. The JS Set built from the
    list has the same membership as the list itself. -/
def filterByValuesFnFactory (values : List String) : FilterFn := fun value =>
  match value with
  | none => false
  | some v =>
    values.contains
      (match v with
       | .str s => s
       | other => cellValueToString other)

/-- Conjunction of two filter functions, the AND helper of filter-model.ts. -/
def AND (fn1 fn2 : FilterFn) : FilterFn := fun value => fn1 value && fn2 value

/-- Disjunction of two filter functions, the OR helper of filter-model.ts. -/
def OR (fn1 fn2 : FilterFn) : FilterFn := fun value => fn1 value || fn2 value

/-- The custom-kind factory customFilterFnFactory of filter-model.ts. The
    compilation of a single predicate (generateCustomFilterFn, which consults
    the predicate library) is the parameter gen, because custom-filters.ts is
    not part of the sources. With exactly two compiled predicates the
    combinator selected by the and field is applied; otherwise the first
    compiled predicate is returned. With an empty predicate list the JS code
    returns undefined, a case modelled by a constantly false function and
    never exercised here. -/
def customFilterFnFactory (gen : ICustomFilter → FilterFn) (customFilters : ICustomFilters) : FilterFn :=
  match customFilters.customFilters.map gen with
  | [fn1, fn2] => if customFilters.and then AND fn1 fn2 else OR fn1 fn2
  | fn1 :: _ => fn1
  | [] => fun _ => false

/-- The compiler generateFilterFn of filter-model.ts: a present filters field
    selects the values kind, a present customFilters field the custom kind,
    and a record with neither makes the compiler throw. -/
def generateFilterFn (gen : ICustomFilter → FilterFn) (column : IFilterColumn) : Except String FilterFn :=
  match column.filters with
  | some values => .ok (filterByValuesFnFactory values)
  | none =>
    match column.customFilters with
    | some customFilters => .ok (customFilterFnFactory gen customFilters)
    | none => .error "[FilterModel]: other types of filters are not supported yet."

/-- Insertion into the insertion-ordered list model of a JS Set of rows. -/
def setAdd (s : List Nat) (x : Nat) : List Nat :=
  if s.contains x then s else s ++ [x]

/-- Modelled from the spec: mergeSets of the core package, the union of two
    sets of row indices; the rows of the second set are folded into the
    first. -/
def mergeSets (a b : List Nat) : List Nat := b.foldl setAdd a

/-- Insertion step of an insertion sort driven by a boolean comparison. -/
def insertBy {α : Type} (le : α → α → Bool) (x : α) : List α → List α
  | [] => [x]
  | y :: ys => if le x y then x :: y :: ys else y :: insertBy le x ys

/-- Insertion sort driven by a boolean comparison; models the result of
    Array.prototype.sort with the corresponding comparator. -/
def sortBy {α : Type} (le : α → α → Bool) : List α → List α
  | [] => []
  | x :: xs => insertBy le x (sortBy le xs)

/-- Lexicographic strict comparison of character lists by code points, the
    comparison JS applies to strings. -/
def strLtB : List Char → List Char → Bool
  | [], [] => false
  | [], _ :: _ => true
  | _ :: _, [] => false
  | c :: cs, d :: ds =>
    if c.toNat < d.toNat then true
    else if d.toNat < c.toNat then false
    else strLtB cs ds

/-- The default comparison of Array.prototype.sort when no comparator is
    passed: elements are compared as strings of their decimal forms. -/
def jsStrLe (a b : Nat) : Bool := !strLtB (toString b).data (toString a).data

/-- Modelled from the spec: the sheet cell reader collaborator. A worksheet
    maps a row and a column to the value of the cell there, none meaning an
    undefined cell. This covers getCell and iterateByColumn, which visits
    every row of the queried range in ascending order. -/
abbrev Worksheet := Nat → Nat → Option CellValue

/-- Row indices from s to e inclusive, ascending; empty when e is below s. -/
def rowsOf (s e : Nat) : List Nat := (List.range (e + 1 - s)).map (· + s)

/-- State of a FilterColumn of filter-model.ts: the stored criteria, the
    compiled filter function (none until compiled), the cached excluded row
    set (none meaning no cache), the stored range and the column offset. -/
structure FilterColumn where
  criteria : IFilterColumn
  filterFn : Option FilterFn := none
  filteredOutRows : Option (List Nat) := none
  range : Option IRange := none
  columnOffset : Nat := 0

/-- Construction of a FilterColumn: only the criteria is recorded. -/
def FilterColumn.new (criteria : IFilterColumn) : FilterColumn :=
  { criteria := criteria }

/-- hasCache of FilterColumn: whether the cache is present. -/
def FilterColumn.hasCache (fc : FilterColumn) : Bool := fc.filteredOutRows.isSome

/-- Membership of a row in the cache of a column; false without a cache. -/
def FilterColumn.cacheHas (fc : FilterColumn) (row : Nat) : Bool :=
  match fc.filteredOutRows with
  | some s => s.contains row
  | none => false

/-- The internal cache clearing of FilterColumn. -/
def FilterColumn.clearCache (fc : FilterColumn) : FilterColumn :=
  { fc with filteredOutRows := none }

/-- setRangeAndOffset of FilterColumn: records the position, nothing else. -/
def FilterColumn.setRangeAndOffset (fc : FilterColumn) (range : IRange) (offset : Nat) : FilterColumn :=
  { fc with range := some range, columnOffset := offset }

/-- setCriteria of FilterColumn: stores the criteria, compiles the filter
    function, then clears the cache. When compilation throws, the stored
    criteria already holds the new value but the filter function and the
    cache are left untouched, exactly as in the source where the exception
    interrupts the method body. -/
def FilterColumn.setCriteria (gen : ICustomFilter → FilterFn) (fc : FilterColumn) (criteria : IFilterColumn) :
    FilterColumn × Option String :=
  let fc1 := { fc with criteria := criteria }
  match generateFilterFn gen criteria with
  | .ok fn => ({ fc1 with filterFn := some fn, filteredOutRows := none }, none)
  | .error e => (fc1, some e)

/-- serialize of FilterColumn: the criteria with the stored column offset
    substituted for the column id. -/
def FilterColumn.serializeOp (fc : FilterColumn) : IFilterColumn :=
  { fc.criteria with colId := fc.columnOffset }

/-- reCalc of FilterColumn: requires a compiled filter function and a range;
    iterates the rows strictly below the first row of the stored range at the
    column given by the stored start column plus the stored offset, skips the
    rows already excluded by other columns, and excludes every remaining row
    whose cell value fails the filter function. The result is cached and also
    returned. -/
def FilterColumn.reCalc (ws : Worksheet) (filteredOutByOthers : List Nat) (fc : FilterColumn) :
    Except String (FilterColumn × List Nat) :=
  match fc.filterFn with
  | none => .error "[FilterColumn] cannot calculate without a filter fn!"
  | some fn =>
    match fc.range with
    | none => .error "[FilterColumn] cannot calculate without a range!"
    | some r =>
      let column := r.startColumn + fc.columnOffset
      let filteredOutRows := (rowsOf (r.startRow + 1) r.endRow).foldl
        (fun acc row =>
          if filteredOutByOthers.contains row then acc
          else if fn (ws row column) then acc else setAdd acc row) []
      .ok ({ fc with filteredOutRows := some filteredOutRows }, filteredOutRows)

/-- Lookup in the insertion-ordered association list that models the JS Map
    from column offsets to filter columns. -/
def mapGet : List (Nat × FilterColumn) → Nat → Option FilterColumn
  | [], _ => none
  | (k, v) :: rest, key => if k == key then some v else mapGet rest key

/-- Update or append in the map model; an existing key keeps its position,
    as JS Map.set does. -/
def mapSet : List (Nat × FilterColumn) → Nat → FilterColumn → List (Nat × FilterColumn)
  | [], key, value => [(key, value)]
  | (k, v) :: rest, key, value =>
    if k == key then (key, value) :: rest else (k, v) :: mapSet rest key value

/-- Deletion in the map model; JS Map keys are unique, so deleting the first
    occurrence models Map.delete. -/
def mapDelete : List (Nat × FilterColumn) → Nat → List (Nat × FilterColumn)
  | [], _ => []
  | (k, v) :: rest, key => if k == key then rest else (k, v) :: mapDelete rest key

/-- State of the FilterModel of filter-model.ts: the offset-keyed collection
    of filter columns, the merged excluded row set, the optional filter range
    and the current values of the two behavior subjects, that is the values a
    subscriber of the corresponding observables receives. -/
structure FilterModel where
  filterColumnByOffset : List (Nat × FilterColumn) := []
  alreadyFilteredOutRows : List Nat := []
  range : Option IRange := none
  hasCriteriaVal : Bool := false
  filteredOutRowsVal : List Nat := []

/-- getFilterColumn of FilterModel. -/
def FilterModel.getFilterColumn (m : FilterModel) (offset : Nat) : Option FilterColumn :=
  mapGet m.filterColumnByOffset offset

/-- isRowFiltered of FilterModel: membership in the merged excluded set. -/
def FilterModel.isRowFiltered (m : FilterModel) (row : Nat) : Bool :=
  m.alreadyFilteredOutRows.contains row

/-- The private emit of FilterModel: pushes the merged excluded set to the
    subscribers of the filteredOutRows observable. -/
def FilterModel.emit (m : FilterModel) : FilterModel :=
  { m with filteredOutRowsVal := m.alreadyFilteredOutRows }

/-- The private emitHasCriteria of FilterModel: pushes whether the column
    collection is non-empty to the subscribers of hasCriteria. -/
def FilterModel.emitHasCriteria (m : FilterModel) : FilterModel :=
  { m with hasCriteriaVal := !m.filterColumnByOffset.isEmpty }

/-- setRange of FilterModel: replaces the range and propagates, to every live
    column, a per-column range whose first row is already advanced past the
    header and whose columns are the absolute column of that filter column,
    together with the unchanged offset. This mirrors the source literally,
    including the fact that this pre-adjusted range is later adjusted a
    second time by FilterColumn.reCalc. -/
def FilterModel.setRange (m : FilterModel) (range : IRange) : FilterModel :=
  { m with
    range := some range,
    filterColumnByOffset := m.filterColumnByOffset.map fun p =>
      (p.1, p.2.setRangeAndOffset
        { startRow := range.startRow + 1
          endRow := range.endRow
          startColumn := range.startColumn + p.1
          endColumn := range.startColumn + p.1 } p.1) }

/-- The private rebuild of FilterModel: the merged excluded set becomes the
    union of the caches of exactly the columns that have a cache. -/
def FilterModel.rebuildAlreadyFilteredOutRowsWithCache (m : FilterModel) : FilterModel :=
  { m with
    alreadyFilteredOutRows :=
      (m.filterColumnByOffset.filter (fun p => p.2.hasCache)).foldl
        (fun acc p => mergeSets acc (p.2.filteredOutRows.getD [])) [] }

/-- The private removeCriteria of FilterModel: disposes and removes the
    column at the offset, a no-op when none is there. -/
def FilterModel.removeCriteria (m : FilterModel) (col : Nat) : FilterModel :=
  { m with filterColumnByOffset := mapDelete m.filterColumnByOffset col }

/-- The private setCriteriaWithoutReCalc of FilterModel: requires a range and
    an in-bounds offset (the source also rejects a negative offset, which a
    natural number cannot be); reuses the column at the offset or creates one
    positioned with the raw model range, inserts it into the map, and then
    sets the criteria on it. When compilation of the criteria throws, the
    freshly created column is nevertheless already in the map, exactly as in
    the source where the map insertion precedes the setCriteria call. -/
def FilterModel.setCriteriaWithoutReCalc (gen : ICustomFilter → FilterFn) (m : FilterModel) (col : Nat) (criteria : IFilterColumn) :
    FilterModel × Option String :=
  match m.range with
  | none => (m, some "[FilterModel] could not set criteria before a range is set!")
  | some range =>
    if col > range.endColumn - range.startColumn then
      (m, some "[FilterModel] could not set criteria on a column which is out of range!")
    else
      match mapGet m.filterColumnByOffset col with
      | some fc =>
        let step := FilterColumn.setCriteria gen fc criteria
        ({ m with filterColumnByOffset := mapSet m.filterColumnByOffset col step.1 }, step.2)
      | none =>
        let fc := (FilterColumn.new criteria).setRangeAndOffset range col
        let step := FilterColumn.setCriteria gen fc criteria
        ({ m with filterColumnByOffset := mapSet m.filterColumnByOffset col step.1 }, step.2)

/-- The loop body of the private reCalcWithNoCacheColumns of FilterModel: the
    offsets are the snapshot of columns lacking a cache; each is recalculated
    against the current merged excluded set, its fresh cache stored and its
    result merged in. A lookup miss cannot occur for the snapshots the model
    builds and is skipped. An exception aborts the remaining batch, keeping
    the partial state, as in the source. -/
def FilterModel.reCalcNoCacheGo (ws : Worksheet) : List Nat → FilterModel → FilterModel × Option String
  | [], m => (m, none)
  | off :: rest, m =>
    match mapGet m.filterColumnByOffset off with
    | none => FilterModel.reCalcNoCacheGo ws rest m
    | some fc =>
      match FilterColumn.reCalc ws m.alreadyFilteredOutRows fc with
      | .error e => (m, some e)
      | .ok step =>
        FilterModel.reCalcNoCacheGo ws rest
          { m with
            filterColumnByOffset := mapSet m.filterColumnByOffset off step.1,
            alreadyFilteredOutRows := mergeSets m.alreadyFilteredOutRows step.2 }

/-- The private reCalcWithNoCacheColumns of FilterModel. -/
def FilterModel.reCalcWithNoCacheColumns (ws : Worksheet) (m : FilterModel) : FilterModel × Option String :=
  FilterModel.reCalcNoCacheGo ws
    ((m.filterColumnByOffset.filter (fun p => !p.2.hasCache)).map (fun p => p.1)) m

/-- The private reCalcAllColumns of FilterModel: resets the merged set,
    clears every cache and recalculates everything. -/
def FilterModel.reCalcAllColumns (ws : Worksheet) (m : FilterModel) : FilterModel × Option String :=
  FilterModel.reCalcWithNoCacheColumns ws
    { m with
      alreadyFilteredOutRows := [],
      filterColumnByOffset := m.filterColumnByOffset.map fun p => (p.1, p.2.clearCache) }

/-- The public reCalc of FilterModel: full recalculation, then emission. -/
def FilterModel.reCalcOp (ws : Worksheet) (m : FilterModel) : FilterModel × Option String :=
  let step := FilterModel.reCalcAllColumns ws m
  match step.2 with
  | some e => (step.1, some e)
  | none => (step.1.emit, none)

/-- The public setCriteria of FilterModel: requires a range; a null criteria
    removes the column, rebuilds the merged set and emits both observables;
    a non-null criteria is stored without recalculation and, only when the
    reCalc flag is set, the merged set is rebuilt from the cached columns,
    the uncached columns are recalculated and both observables emitted. -/
def FilterModel.setCriteria (gen : ICustomFilter → FilterFn) (ws : Worksheet) (m : FilterModel) (col : Nat) (criteria : Option IFilterColumn) (reCalc : Bool) :
    FilterModel × Option String :=
  match m.range with
  | none => (m, some "[FilterModel] could not set criteria before a range is set!")
  | some _ =>
    match criteria with
    | none =>
      ((((m.removeCriteria col).rebuildAlreadyFilteredOutRowsWithCache).emit).emitHasCriteria, none)
    | some c =>
      let step := FilterModel.setCriteriaWithoutReCalc gen m col c
      match step.2 with
      | some e => (step.1, some e)
      | none =>
        if reCalc then
          let step2 := FilterModel.reCalcWithNoCacheColumns ws
            step.1.rebuildAlreadyFilteredOutRowsWithCache
          match step2.2 with
          | some e => (step2.1, some e)
          | none => (((step2.1).emit).emitHasCriteria, none)
        else (step.1, none)

/-- serialize of FilterModel: none models the exception the source raises
    when no range is set. The column records are sorted by offset with the
    numeric comparator of the source; the merged excluded rows are sorted by
    the default comparator of Array.prototype.sort, which compares decimal
    string forms. -/
def FilterModel.serialize (m : FilterModel) : Option IAutoFilter :=
  match m.range with
  | none => none
  | some r =>
    some
      { ref := r
        filterColumns := some
          ((sortBy (fun p q => decide (p.1 ≤ q.1)) m.filterColumnByOffset).map
            (fun p => p.2.serializeOp))
        cachedFilteredOut := some (sortBy jsStrLe m.alreadyFilteredOutRows) }

/-- The column loop of the private dump of FilterModel: each serialized
    record is applied through setCriteriaWithoutReCalc at its colId; an
    exception aborts the loop keeping the partial state. -/
def FilterModel.dumpGo (gen : ICustomFilter → FilterFn) : List IFilterColumn → FilterModel → FilterModel × Option String
  | [], m => (m, none)
  | c :: rest, m =>
    let step := FilterModel.setCriteriaWithoutReCalc gen m c.colId c
    match step.2 with
    | some e => (step.1, some e)
    | none => FilterModel.dumpGo gen rest step.1

/-- deserialize of FilterModel: a fresh model receives the range, then every
    serialized column without recalculation; a present cachedFilteredOut list
    becomes the merged excluded set (as a set, dropping duplicates) and is
    emitted; finally hasCriteria is emitted. The workbook and worksheet
    identifiers of the source carry no behavior and are omitted. -/
def FilterModel.deserialize (gen : ICustomFilter → FilterFn) (autoFilter : IAutoFilter) : FilterModel × Option String :=
  let m1 := FilterModel.setRange { } autoFilter.ref
  let step := FilterModel.dumpGo gen (autoFilter.filterColumns.getD []) m1
  match step.2 with
  | some e => (step.1, some e)
  | none =>
    let m3 :=
      match autoFilter.cachedFilteredOut with
      | some rows => FilterModel.emit { step.1 with alreadyFilteredOutRows := rows.foldl setAdd [] }
      | none => step.1
    (m3.emitHasCriteria, none)

/-- Membership of a row in the union of the cached excluded row sets of
    exactly the columns that currently have a cache. -/
def cacheUnionMem (m : FilterModel) (row : Nat) : Bool :=
  m.filterColumnByOffset.any fun p => p.2.cacheHas row

/-- The merged excluded row set of the model has exactly the members of the
    union of the cached per-column excluded row sets. -/
def mergedMatchesCacheUnion (m : FilterModel) : Prop :=
  ∀ row, m.alreadyFilteredOutRows.contains row = cacheUnionMem m row

/-- The column offsets of the model are pairwise distinct, which the JS Map
    of the source guarantees structurally. -/
def keysNodup (m : FilterModel) : Prop :=
  (m.filterColumnByOffset.map Prod.fst).Nodup

/-- A predicate compiler standing in for the predicate library in concrete
    evaluations that only exercise the values kind; it is never consulted
    there. -/
def gen0 : ICustomFilter → FilterFn := fun _ _ => false

/-- Concrete worksheet: column 1 holds the string x in every row, all other
    cells are undefined. -/
def wsC1 : Worksheet := fun _ col => if col == 1 then some (.str "x") else none

/-- Concrete two-column range with rows 0 to 3, row 0 the header. -/
def rC1 : IRange := ⟨0, 3, 0, 1⟩

/-- Concrete values criteria keeping only the string x, for offset 1. -/
def cC1 : IFilterColumn := ⟨1, some ["x"], none⟩

/-- Fresh model with the concrete two-column range set. -/
def mC1a : FilterModel := FilterModel.setRange { } rC1

/-- The model after a successful setCriteria with recalculation at offset 1:
    every cell of the evaluated column matches, so nothing is excluded. -/
def mC1b : FilterModel := (FilterModel.setCriteria gen0 wsC1 mC1a 1 (some cC1) true).1

/-- The same model after setRange is called again with the very same range. -/
def mC1c : FilterModel := mC1b.setRange rC1

/-- Concrete worksheet with no defined cell at all. -/
def wsS : Worksheet := fun _ _ => none

/-- Concrete one-column range with a single data row below the header. -/
def rS : IRange := ⟨0, 1, 0, 0⟩

/-- Concrete values criteria for column offset 0. -/
def cS : IFilterColumn := ⟨0, some ["a"], none⟩

/-- Fresh model with the one-column range set. -/
def mS : FilterModel := FilterModel.setRange { } rS

/-- Model after a successful setCriteria with recalculation at offset 0; the
    single data row is excluded because its cell is undefined. -/
def mS1 : FilterModel := (FilterModel.setCriteria gen0 wsS mS 0 (some cS) true).1

/-- Concrete criteria record that compiles to no filter function. -/
def cBad : IFilterColumn := ⟨0, none, none⟩

/-- Concrete persisted record whose cached excluded rows are 2 and 10. -/
def afC4 : IAutoFilter := ⟨⟨0, 10, 0, 0⟩, some [], some [2, 10]⟩

/-- Concrete one-cached-column model with merged excluded row 5, used in the
    round-trip evaluation. -/
def mC6 : FilterModel :=
  { filterColumnByOffset := [(0,
      { criteria := ⟨0, some ["a"], none⟩
        filterFn := some (filterByValuesFnFactory ["a"])
        filteredOutRows := some [5]
        range := some ⟨0, 9, 0, 0⟩
        columnOffset := 0 })]
    alreadyFilteredOutRows := [5]
    range := some ⟨0, 9, 0, 0⟩
    hasCriteriaVal := true
    filteredOutRowsVal := [5] }

/-- The serialized form of the concrete round-trip model. -/
def afC6 : IAutoFilter := ⟨⟨0, 9, 0, 0⟩, some [⟨0, some ["a"], none⟩], some [5]⟩

/-- Concrete filter column ready for recalculation over rows 1 to 3 of
    column 0, keeping only the string a. -/
def fcC5 : FilterColumn :=
  { criteria := cS
    filterFn := some (filterByValuesFnFactory ["a"])
    filteredOutRows := none
    range := some ⟨0, 3, 0, 0⟩
    columnOffset := 0 }

/-- Membership after inserting into the ordered set model. -/
theorem mem_setAdd (s : List Nat) (x y : Nat) : y ∈ setAdd s x ↔ y ∈ s ∨ y = x := by
  unfold setAdd
  split
  · next h =>
    constructor
    · exact fun hy => Or.inl hy
    · rintro (hy | rfl)
      · exact hy
      · simpa using h
  · simp

/-- Membership in the union of two ordered sets. -/
theorem mem_mergeSets (a b : List Nat) (y : Nat) : y ∈ mergeSets a b ↔ y ∈ a ∨ y ∈ b := by
  induction b generalizing a with
  | nil => simp [mergeSets]
  | cons x bs ih =>
    show y ∈ mergeSets (setAdd a x) bs ↔ _
    rw [ih, mem_setAdd]
    constructor
    · rintro ((h | rfl) | h)
      · exact Or.inl h
      · exact Or.inr (List.mem_cons_self _ _)
      · exact Or.inr (List.mem_cons_of_mem _ h)
    · rintro (h | h)
      · exact Or.inl (Or.inl h)
      · rcases List.mem_cons.mp h with rfl | h
        · exact Or.inl (Or.inr rfl)
        · exact Or.inr h

/-- Contains form of mem_mergeSets. -/
theorem mergeSets_contains (a b : List Nat) (y : Nat) :
    (mergeSets a b).contains y = (a.contains y || b.contains y) := by
  simp [mem_mergeSets]

/-- Membership after an insertion step of the insertion sort. -/
theorem mem_insertBy (le : Nat → Nat → Bool) (x y : Nat) (l : List Nat) :
    y ∈ insertBy le x l ↔ y ∈ l ∨ y = x := by
  induction l with
  | nil => simp [insertBy]
  | cons z zs ih =>
    unfold insertBy
    split
    · constructor
      · rintro h
        rcases List.mem_cons.mp h with rfl | h
        · exact Or.inr rfl
        · exact Or.inl h
      · rintro (h | rfl)
        · exact List.mem_cons_of_mem _ h
        · exact List.mem_cons_self _ _
    · constructor
      · intro h
        rcases List.mem_cons.mp h with rfl | h
        · exact Or.inl (List.mem_cons_self _ _)
        · rcases ih.mp h with h | rfl
          · exact Or.inl (List.mem_cons_of_mem _ h)
          · exact Or.inr rfl
      · rintro (h | rfl)
        · rcases List.mem_cons.mp h with rfl | h
          · exact List.mem_cons_self _ _
          · exact List.mem_cons_of_mem _ (ih.mpr (Or.inl h))
        · exact List.mem_cons_of_mem _ (ih.mpr (Or.inr rfl))

/-- The insertion sort preserves membership. -/
theorem mem_sortBy (le : Nat → Nat → Bool) (y : Nat) (l : List Nat) :
    y ∈ sortBy le l ↔ y ∈ l := by
  induction l with
  | nil => simp [sortBy]
  | cons z zs ih =>
    show y ∈ insertBy le z (sortBy le zs) ↔ _
    rw [mem_insertBy, ih]
    constructor
    · rintro (h | rfl)
      · exact List.mem_cons_of_mem _ h
      · exact List.mem_cons_self _ _
    · intro h
      rcases List.mem_cons.mp h with rfl | h
      · exact Or.inr rfl
      · exact Or.inl h

/-- Membership in the ascending row enumeration. -/
theorem mem_rowsOf (s e y : Nat) : y ∈ rowsOf s e ↔ s ≤ y ∧ y ≤ e := by
  unfold rowsOf
  simp only [List.mem_map, List.mem_range]
  constructor
  · rintro ⟨i, hi, rfl⟩
    omega
  · rintro ⟨h1, h2⟩
    exact ⟨y - s, by omega, by omega⟩

/-- Lookup after an update at the same key. -/
theorem mapGet_mapSet_self (l : List (Nat × FilterColumn)) (k : Nat) (v : FilterColumn) :
    mapGet (mapSet l k v) k = some v := by
  induction l with
  | nil => simp [mapSet, mapGet]
  | cons p rest ih =>
    obtain ⟨k0, v0⟩ := p
    by_cases h : k0 = k
    · subst h; simp [mapSet, mapGet]
    · simp [mapSet, mapGet, h, ih]

/-- Lookup after an update at a different key. -/
theorem mapGet_mapSet_ne (l : List (Nat × FilterColumn)) (k k2 : Nat) (v : FilterColumn)
    (h : k2 ≠ k) : mapGet (mapSet l k v) k2 = mapGet l k2 := by
  induction l with
  | nil => simp [mapSet, mapGet, Ne.symm h]
  | cons p rest ih =>
    obtain ⟨k0, v0⟩ := p
    by_cases h0 : k0 = k
    · subst h0
      simp [mapSet, mapGet, Ne.symm h]
    · simp only [mapSet, mapGet, beq_iff_eq, h0, if_false]
      by_cases h2 : k0 = k2 <;> simp [mapGet, h2, ih]

/-- Keys present after an update. -/
theorem mem_keys_mapSet (l : List (Nat × FilterColumn)) (k x : Nat) (v : FilterColumn) :
    x ∈ (mapSet l k v).map (fun p => p.1) ↔ x ∈ l.map (fun p => p.1) ∨ x = k := by
  induction l with
  | nil => simp [mapSet]
  | cons p rest ih =>
    obtain ⟨k0, v0⟩ := p
    by_cases h : k0 = k
    · subst h
      simp [mapSet]
      tauto
    · simp only [mapSet, beq_iff_eq, h, if_false, List.map_cons, List.mem_cons, ih]
      tauto

/-- Distinctness of keys is preserved by an update. -/
theorem keysNodup_mapSet (l : List (Nat × FilterColumn)) (k : Nat) (v : FilterColumn)
    (h : (l.map (fun p => p.1)).Nodup) : ((mapSet l k v).map (fun p => p.1)).Nodup := by
  induction l with
  | nil => simp [mapSet]
  | cons p rest ih =>
    obtain ⟨k0, v0⟩ := p
    simp only [List.map_cons, List.nodup_cons] at h
    by_cases h0 : k0 = k
    · subst h0
      simpa [mapSet] using h
    · simp only [mapSet, beq_iff_eq, h0, if_false, List.map_cons, List.nodup_cons]
      refine ⟨?_, ih h.2⟩
      rw [mem_keys_mapSet]
      rintro (hmem | rfl)
      · exact h.1 hmem
      · exact h0 rfl

/-- With distinct keys, membership of an entry determines the lookup. -/
theorem mapGet_of_mem_nodup (l : List (Nat × FilterColumn)) (k : Nat) (v : FilterColumn)
    (h : (l.map (fun p => p.1)).Nodup) (hm : (k, v) ∈ l) : mapGet l k = some v := by
  induction l with
  | nil => simp at hm
  | cons p rest ih =>
    obtain ⟨k0, v0⟩ := p
    simp only [List.map_cons, List.nodup_cons] at h
    rcases List.mem_cons.mp hm with heq | hmem
    · injection heq with h1 h2
      subst h1; subst h2
      simp [mapGet]
    · have hk : k0 ≠ k := by
        rintro rfl
        exact h.1 (List.mem_map.mpr ⟨(k0, v), hmem, rfl⟩)
      simp [mapGet, hk, ih h.2 hmem]

/-- A column without a cache contributes no row. -/
theorem FilterColumn.cacheHas_none (fc : FilterColumn) (row : Nat)
    (h : fc.filteredOutRows = none) : fc.cacheHas row = false := by
  simp [FilterColumn.cacheHas, h]

/-- The union over the map after an update of an uncached entry gains exactly
    the contribution of the new entry. -/
theorem any_mapSet_cacheHas (l : List (Nat × FilterColumn)) (k : Nat) (fc fc1 : FilterColumn)
    (row : Nat) (hget : mapGet l k = some fc) (hnc : fc.cacheHas row = false) :
    ((mapSet l k fc1).any fun p => p.2.cacheHas row) =
      ((l.any fun p => p.2.cacheHas row) || fc1.cacheHas row) := by
  induction l with
  | nil => simp [mapGet] at hget
  | cons p rest ih =>
    obtain ⟨k0, v0⟩ := p
    by_cases h0 : k0 = k
    · subst h0
      simp only [mapGet, beq_iff_eq, if_pos rfl] at hget
      injection hget with hv
      subst hv
      simp [mapSet, hnc, Bool.or_comm, Bool.or_assoc, Bool.or_left_comm]
    · simp only [mapGet, beq_iff_eq, h0, if_false] at hget
      simp [mapSet, h0, ih hget, Bool.or_assoc]

/-- A successful reCalc stores exactly the returned rows as the cache and
    changes nothing else in the column. -/
theorem FilterColumn.reCalc_ok (ws : Worksheet) (others : List Nat) (fc : FilterColumn)
    (s : FilterColumn × List Nat) (h : FilterColumn.reCalc ws others fc = .ok s) :
    s.1 = { fc with filteredOutRows := some s.2 } := by
  unfold FilterColumn.reCalc at h
  split at h
  · simp at h
  · split at h
    · simp at h
    · injection h with h1
      subst h1
      rfl

/-- Contains form of the fold that unions cached contributions. -/
theorem foldl_mergeSets_contains (entries : List (Nat × FilterColumn)) (acc : List Nat) (row : Nat) :
    (entries.foldl (fun acc p => mergeSets acc (p.2.filteredOutRows.getD [])) acc).contains row
      = (acc.contains row || entries.any fun p => (p.2.filteredOutRows.getD []).contains row) := by
  induction entries generalizing acc with
  | nil => simp
  | cons p rest ih =>
    simp only [List.foldl_cons, List.any_cons]
    rw [ih, mergeSets_contains, Bool.or_assoc]

/-- Restricting the union to the cached columns matches the per-column
    contribution function. -/
theorem any_filter_hasCache (l : List (Nat × FilterColumn)) (row : Nat) :
    ((l.filter fun p => p.2.hasCache).any fun p => (p.2.filteredOutRows.getD []).contains row)
      = l.any fun p => p.2.cacheHas row := by
  induction l with
  | nil => rfl
  | cons p rest ih =>
    cases hfo : p.2.filteredOutRows with
    | none =>
      rw [List.filter_cons_of_neg (by simp [FilterColumn.hasCache, hfo]), List.any_cons, ih,
        FilterColumn.cacheHas_none p.2 row hfo]
      simp
    | some s =>
      rw [List.filter_cons_of_pos (by simp [FilterColumn.hasCache, hfo]), List.any_cons,
        List.any_cons, ih]
      have hcontrib : p.2.cacheHas row = (p.2.filteredOutRows.getD []).contains row := by
        simp [FilterColumn.cacheHas, hfo]
      rw [hcontrib]

/-- After the private rebuild, the merged set is the union of the caches. -/
theorem rebuild_merged_contains (m : FilterModel) (row : Nat) :
    (m.rebuildAlreadyFilteredOutRowsWithCache).alreadyFilteredOutRows.contains row
      = cacheUnionMem m row := by
  show ((m.filterColumnByOffset.filter fun p => p.2.hasCache).foldl
      (fun acc p => mergeSets acc (p.2.filteredOutRows.getD [])) []).contains row = _
  rw [foldl_mergeSets_contains, any_filter_hasCache]
  simp [cacheUnionMem]

/-- The private rebuild establishes the merged invariant outright. -/
theorem rebuild_inv (m : FilterModel) :
    mergedMatchesCacheUnion m.rebuildAlreadyFilteredOutRowsWithCache := by
  intro row
  rw [rebuild_merged_contains]
  rfl

/-- Every entry of the cleared map is uncached. -/
theorem mapGet_cleared (l : List (Nat × FilterColumn)) (off : Nat) (fc : FilterColumn)
    (h : mapGet (l.map fun p => (p.1, p.2.clearCache)) off = some fc) :
    fc.filteredOutRows = none := by
  induction l with
  | nil => simp [mapGet] at h
  | cons p rest ih =>
    simp only [List.map_cons, mapGet] at h
    by_cases h0 : p.1 = off
    · simp only [h0, beq_self_eq_true, if_pos rfl] at h
      injection h with hfc
      subst hfc
      rfl
    · simp only [beq_iff_eq, h0, if_false] at h
      exact ih h

/-- Clearing the caches keeps the keys. -/
theorem keys_cleared (l : List (Nat × FilterColumn)) :
    ((l.map fun p => (p.1, p.2.clearCache)).map fun p => p.1) = l.map fun p => p.1 := by
  induction l with
  | nil => rfl
  | cons p rest ih => simp [ih]

/-- The cleared map contributes no cached row. -/
theorem any_cleared (l : List (Nat × FilterColumn)) (row : Nat) :
    ((l.map fun p => (p.1, p.2.clearCache)).any fun p => p.2.cacheHas row) = false := by
  induction l with
  | nil => rfl
  | cons p rest ih => simp [FilterColumn.cacheHas, FilterColumn.clearCache, ih]

/-- The snapshot of uncached offsets has no duplicates when the keys are
    distinct. -/
theorem snapshot_nodup (l : List (Nat × FilterColumn)) (h : (l.map fun p => p.1).Nodup) :
    ((l.filter fun p => !p.2.hasCache).map fun p => p.1).Nodup := by
  exact h.sublist ((List.filter_sublist l).map (fun p => p.1))

/-- With distinct keys, every offset of the uncached snapshot looks up a
    column without a cache. -/
theorem snapshot_uncached (l : List (Nat × FilterColumn)) (h : (l.map fun p => p.1).Nodup) :
    ∀ off ∈ (l.filter fun p => !p.2.hasCache).map fun p => p.1,
      ∀ fc, mapGet l off = some fc → fc.filteredOutRows = none := by
  intro off hoff fc hget
  obtain ⟨p, hpmem, hpeq⟩ := List.mem_map.mp hoff
  obtain ⟨hpl, hq⟩ := List.mem_filter.mp hpmem
  have hg2 : mapGet l p.1 = some p.2 := mapGet_of_mem_nodup l p.1 p.2 h hpl
  subst hpeq
  rw [hg2] at hget
  injection hget with hfc
  subst hfc
  cases hfo : p.2.filteredOutRows with
  | none => rfl
  | some s => simp [FilterColumn.hasCache, hfo] at hq

/-- The recalc loop preserves the merged invariant: starting from a state
    whose merged set matches the cache union and recalculating any duplicate
    free batch of uncached offsets keeps the match. -/
theorem reCalcNoCacheGo_inv (ws : Worksheet) (offs : List Nat) :
    ∀ (m m' : FilterModel),
      offs.Nodup →
      (∀ off ∈ offs, ∀ fc, mapGet m.filterColumnByOffset off = some fc → fc.filteredOutRows = none) →
      mergedMatchesCacheUnion m →
      FilterModel.reCalcNoCacheGo ws offs m = (m', none) →
      mergedMatchesCacheUnion m' := by
  induction offs with
  | nil =>
    intro m m' _ _ hinv hgo
    simp only [FilterModel.reCalcNoCacheGo] at hgo
    obtain ⟨rfl, -⟩ := Prod.mk.injEq .. ▸ hgo
    exact hinv
  | cons off rest ih =>
    intro m m' hnd hpre hinv hgo
    simp only [FilterModel.reCalcNoCacheGo] at hgo
    split at hgo
    · exact ih m m' hnd.of_cons
        (fun o ho => hpre o (List.mem_cons_of_mem _ ho)) hinv hgo
    · next fc hget =>
      split at hgo
      · simp at hgo
      · next s hrc =>
        have hs1 := FilterColumn.reCalc_ok ws _ fc s hrc
        have hfcnone : fc.filteredOutRows = none :=
          hpre off (List.mem_cons_self _ _) fc hget
        refine ih _ m' hnd.of_cons ?_ ?_ hgo
        · intro o ho fc' hg'
          have hne : o ≠ off := by
            rintro rfl
            exact (List.nodup_cons.mp hnd).1 ho
          have hg2 : mapGet (mapSet m.filterColumnByOffset off s.1) o = some fc' := hg'
          rw [mapGet_mapSet_ne _ _ _ _ hne] at hg2
          exact hpre o (List.mem_cons_of_mem _ ho) fc' hg2
        · intro row
          show (mergeSets m.alreadyFilteredOutRows s.2).contains row
            = (mapSet m.filterColumnByOffset off s.1).any fun p => p.2.cacheHas row
          rw [mergeSets_contains, hinv row,
            any_mapSet_cacheHas m.filterColumnByOffset off fc s.1 row hget
              (FilterColumn.cacheHas_none fc row hfcnone)]
          have hch : s.1.cacheHas row = s.2.contains row := by
            rw [hs1]
            rfl
          rw [hch]
          rfl

/-- Membership in the row exclusion fold of reCalc, over any accumulator. -/
theorem mem_reCalcFold (others : List Nat) (q : Nat → Bool) (rows : List Nat) (acc : List Nat) (x : Nat) :
    x ∈ rows.foldl (fun acc row => if others.contains row then acc
        else if q row then acc else setAdd acc row) acc
    ↔ x ∈ acc ∨ (x ∈ rows ∧ x ∉ others ∧ q x = false) := by
  induction rows generalizing acc with
  | nil => simp
  | cons rr rs ih =>
    simp only [List.foldl_cons]
    by_cases h1 : rr ∈ others
    · rw [if_pos (by simpa using h1), ih]
      constructor
      · rintro (h | ⟨hmem, hno, hq⟩)
        · exact Or.inl h
        · exact Or.inr ⟨List.mem_cons_of_mem _ hmem, hno, hq⟩
      · rintro (h | ⟨hmem, hno, hq⟩)
        · exact Or.inl h
        · rcases List.mem_cons.mp hmem with rfl | hmem2
          · exact absurd h1 hno
          · exact Or.inr ⟨hmem2, hno, hq⟩
    · rw [if_neg (by simpa using h1)]
      by_cases h2 : q rr = true
      · rw [if_pos h2, ih]
        constructor
        · rintro (h | ⟨hmem, hno, hq⟩)
          · exact Or.inl h
          · exact Or.inr ⟨List.mem_cons_of_mem _ hmem, hno, hq⟩
        · rintro (h | ⟨hmem, hno, hq⟩)
          · exact Or.inl h
          · rcases List.mem_cons.mp hmem with rfl | hmem2
            · rw [h2] at hq
              exact absurd hq (by simp)
            · exact Or.inr ⟨hmem2, hno, hq⟩
      · rw [if_neg h2, ih]
        constructor
        · rintro (h | ⟨hmem, hno, hq⟩)
          · rcases (mem_setAdd _ _ _).mp h with h | rfl
            · exact Or.inl h
            · exact Or.inr ⟨List.mem_cons_self _ _, h1, by simpa using h2⟩
          · exact Or.inr ⟨List.mem_cons_of_mem _ hmem, hno, hq⟩
        · rintro (h | ⟨hmem, hno, hq⟩)
          · exact Or.inl ((mem_setAdd _ _ _).mpr (Or.inl h))
          · rcases List.mem_cons.mp hmem with rfl | hmem2
            · exact Or.inl ((mem_setAdd _ _ _).mpr (Or.inr rfl))
            · exact Or.inr ⟨hmem2, hno, hq⟩

/-- Bridge between the boolean membership and the proposition. -/
theorem contains_eq_decide (l : List Nat) (x : Nat) : l.contains x = decide (x ∈ l) := by
  simp [List.elem_eq_mem]

/-- Contains form of the row exclusion fold, from the empty accumulator. -/
theorem reCalcFold_contains (others : List Nat) (q : Nat → Bool) (rows : List Nat) (x : Nat) :
    (rows.foldl (fun acc row => if others.contains row then acc
        else if q row then acc else setAdd acc row) []).contains x
    = (rows.contains x && !others.contains x && !q x) := by
  have hmem := mem_reCalcFold others q rows [] x
  simp only [List.not_mem_nil, false_or] at hmem
  rw [contains_eq_decide, contains_eq_decide, contains_eq_decide]
  simp only [hmem]
  by_cases h1 : x ∈ rows <;> by_cases h2 : x ∈ others <;> by_cases h3 : q x = true <;>
    simp [h1, h2, h3]

/-- Contains form of the ascending row enumeration. -/
theorem rowsOf_contains (s e x : Nat) :
    (rowsOf s e).contains x = (decide (s ≤ x) && decide (x ≤ e)) := by
  by_cases h1 : s ≤ x <;> by_cases h2 : x ≤ e <;> simp [mem_rowsOf, h1, h2]

/-- Contains form of a filtered row list. -/
theorem filter_contains (l : List Nat) (p : Nat → Bool) (x : Nat) :
    (l.filter p).contains x = (l.contains x && p x) := by
  by_cases h1 : x ∈ l <;> by_cases h2 : p x = true <;> simp [List.mem_filter, h1, h2]

/-- setCriteriaWithoutReCalc never touches the merged excluded set. -/
theorem setCriteriaWithoutReCalc_merged (gen : ICustomFilter → FilterFn) (m : FilterModel)
    (col : Nat) (c : IFilterColumn) :
    (FilterModel.setCriteriaWithoutReCalc gen m col c).1.alreadyFilteredOutRows
      = m.alreadyFilteredOutRows := by
  unfold FilterModel.setCriteriaWithoutReCalc
  split
  · rfl
  · split
    · rfl
    · split <;> rfl

/-- setCriteriaWithoutReCalc never touches the emitted hasCriteria value. -/
theorem setCriteriaWithoutReCalc_hasCriteriaVal (gen : ICustomFilter → FilterFn) (m : FilterModel)
    (col : Nat) (c : IFilterColumn) :
    (FilterModel.setCriteriaWithoutReCalc gen m col c).1.hasCriteriaVal = m.hasCriteriaVal := by
  unfold FilterModel.setCriteriaWithoutReCalc
  split
  · rfl
  · split
    · rfl
    · split <;> rfl

/-- setCriteriaWithoutReCalc keeps the keys of the map duplicate free. -/
theorem setCriteriaWithoutReCalc_keysNodup (gen : ICustomFilter → FilterFn) (m : FilterModel)
    (col : Nat) (c : IFilterColumn) (h : keysNodup m) :
    keysNodup (FilterModel.setCriteriaWithoutReCalc gen m col c).1 := by
  unfold FilterModel.setCriteriaWithoutReCalc
  split
  · exact h
  · split
    · exact h
    · split
      · exact keysNodup_mapSet _ _ _ h
      · exact keysNodup_mapSet _ _ _ h

/-- The two emissions change neither the merged set nor the columns, so they
    preserve the merged invariant. -/
theorem inv_emits (m : FilterModel) (h : mergedMatchesCacheUnion m) :
    mergedMatchesCacheUnion ((m.emit).emitHasCriteria) := h

/-- Claim C7: for every criteria record with neither a filters field nor a
    customFilters field, filter function compilation fails with an error and
    never returns a filter function, in particular none that passes all
    rows. -/
theorem C7_generateFilterFn_unsupported (gen : ICustomFilter → FilterFn) (c : IFilterColumn)
    (h1 : c.filters = none) (h2 : c.customFilters = none) :
    generateFilterFn gen c
      = .error "[FilterModel]: other types of filters are not supported yet." := by
  unfold generateFilterFn
  rw [h1, h2]

/-- Witness for C7 at a concrete criteria record. -/
theorem C7_witness :
    generateFilterFn gen0 cBad
      = .error "[FilterModel]: other types of filters are not supported yet." :=
  C7_generateFilterFn_unsupported gen0 cBad rfl rfl

/-- Claim C8: with exactly two predicates, the compiled custom filter is the
    pointwise conjunction of the two compiled predicates when the and flag is
    set and the pointwise disjunction otherwise, the first predicate applied
    first; with exactly one predicate it is that compiled predicate
    directly. -/
theorem C8_customFilterFnFactory_combinators (gen : ICustomFilter → FilterFn)
    (p1 p2 : ICustomFilter) :
    (∀ v, customFilterFnFactory gen ⟨true, [p1, p2]⟩ v = (gen p1 v && gen p2 v)) ∧
    (∀ v, customFilterFnFactory gen ⟨false, [p1, p2]⟩ v = (gen p1 v || gen p2 v)) ∧
    (∀ b v, customFilterFnFactory gen ⟨b, [p1]⟩ v = gen p1 v) := by
  refine ⟨fun v => rfl, fun v => rfl, fun b v => ?_⟩
  cases b <;> rfl

/-- Claim C9: the filter compiled from a values kind criteria rejects an
    undefined cell value and accepts any other value exactly when its
    (stringified when not a string) form is a member of the allow list. -/
theorem C9_values_filter (gen : ICustomFilter → FilterFn) (c : IFilterColumn)
    (vs : List String) (h : c.filters = some vs) :
    generateFilterFn gen c = .ok (filterByValuesFnFactory vs) ∧
    filterByValuesFnFactory vs none = false ∧
    (∀ v, filterByValuesFnFactory vs (some v) = vs.contains (cellValueToString v)) := by
  refine ⟨?_, rfl, fun v => ?_⟩
  · unfold generateFilterFn
    rw [h]
  · cases v <;> rfl

/-- Witness for C9 at the allow list of the spec example. -/
theorem C9_witness :
    filterByValuesFnFactory ["hello", "univer"] none = false ∧
    filterByValuesFnFactory ["hello", "univer"] (some (.str "hello"))
      = ["hello", "univer"].contains (cellValueToString (.str "hello")) :=
  ⟨(C9_values_filter gen0 ⟨0, some ["hello", "univer"], none⟩ ["hello", "univer"] rfl).2.1,
   (C9_values_filter gen0 ⟨0, some ["hello", "univer"], none⟩ ["hello", "univer"] rfl).2.2
     (.str "hello")⟩

/-- Claim C5: a successful FilterColumn.reCalc caches and returns exactly the
    rows of the evaluated span that are neither in the snapshot of rows
    already excluded by other columns nor accepted by the compiled filter
    function; no snapshot row enters the result, and the union of the
    snapshot with the result equals the union of the snapshot with the
    unskipped evaluation, so the skip cannot change the merged union. -/
theorem C5_reCalc_excluded_set (ws : Worksheet) (others : List Nat) (fc fc1 : FilterColumn)
    (out : List Nat) (fn : FilterFn) (r : IRange)
    (hf : fc.filterFn = some fn) (hr : fc.range = some r)
    (h : FilterColumn.reCalc ws others fc = .ok (fc1, out)) :
    fc1.filteredOutRows = some out ∧
    (∀ row, out.contains row
      = ((decide (r.startRow + 1 ≤ row) && decide (row ≤ r.endRow))
          && !others.contains row && !fn (ws row (r.startColumn + fc.columnOffset)))) ∧
    (∀ row ∈ others, out.contains row = false) ∧
    (∀ row, (mergeSets others out).contains row
      = (mergeSets others ((rowsOf (r.startRow + 1) r.endRow).filter
          (fun row => !fn (ws row (r.startColumn + fc.columnOffset))))).contains row) := by
  simp only [FilterColumn.reCalc, hf, hr] at h
  injection h with hp
  have h1 : _ = fc1 := congrArg Prod.fst hp
  have h2 : _ = out := congrArg Prod.snd hp
  subst h2
  subst h1
  have hmain : ∀ row, ((rowsOf (r.startRow + 1) r.endRow).foldl
      (fun acc row => if others.contains row then acc
        else if fn (ws row (r.startColumn + fc.columnOffset)) then acc
        else setAdd acc row) []).contains row
      = ((rowsOf (r.startRow + 1) r.endRow).contains row && !others.contains row
          && !fn (ws row (r.startColumn + fc.columnOffset))) := fun row =>
    reCalcFold_contains others (fun row => fn (ws row (r.startColumn + fc.columnOffset)))
      (rowsOf (r.startRow + 1) r.endRow) row
  refine ⟨rfl, ?_, ?_, ?_⟩
  · intro row
    rw [hmain row, rowsOf_contains]
  · intro row hrow
    rw [hmain row]
    have hco : others.contains row = true := by
      rw [contains_eq_decide]
      simpa using hrow
    rw [hco]
    simp
  · intro row
    rw [mergeSets_contains, mergeSets_contains, hmain row, filter_contains]
    cases hco : others.contains row <;> simp

/-- Witness for C5: the snapshot already excludes row 1, the undefined cells
    make every row fail the predicate, and the resulting exclusion set is
    exactly the remaining rows 2 and 3. -/
theorem C5_witness :
    ([2, 3] : List Nat).contains 1 = false :=
  (C5_reCalc_excluded_set wsS [1] fcC5 { fcC5 with filteredOutRows := some [2, 3] } [2, 3]
    (filterByValuesFnFactory ["a"]) ⟨0, 3, 0, 0⟩ rfl rfl rfl).2.2.1 1 (by decide)

/-- Claim C10: when setCriteria is called with a range set, an in-bounds
    offset holding no column yet, and a criteria whose compilation throws,
    the call fails and yet the column map afterwards holds a FilterColumn at
    that offset: the failed call is not atomic with respect to the map. -/
theorem C10_setCriteria_not_atomic (gen : ICustomFilter → FilterFn) (ws : Worksheet)
    (m : FilterModel) (col : Nat) (c : IFilterColumn) (r : IRange) (reCalc : Bool)
    (hr : m.range = some r) (hb : ¬ col > r.endColumn - r.startColumn)
    (habsent : mapGet m.filterColumnByOffset col = none)
    (h1 : c.filters = none) (h2 : c.customFilters = none) :
    (FilterModel.setCriteria gen ws m col (some c) reCalc).2
        = some "[FilterModel]: other types of filters are not supported yet." ∧
    (FilterModel.setCriteria gen ws m col (some c) reCalc).1.getFilterColumn col
      = some { criteria := c
               range := some r
               columnOffset := col } := by
  have hs : FilterModel.setCriteriaWithoutReCalc gen m col c
      = ({ m with filterColumnByOffset := (mapSet m.filterColumnByOffset col
            { criteria := c, range := some r, columnOffset := col }) },
         some "[FilterModel]: other types of filters are not supported yet.") := by
    unfold FilterModel.setCriteriaWithoutReCalc FilterColumn.setCriteria generateFilterFn
    rw [hr]
    simp only [if_neg hb, habsent, h1, h2]
    rfl
  constructor
  · simp only [FilterModel.setCriteria, hr, hs]
  · simp only [FilterModel.setCriteria, hr, hs, FilterModel.getFilterColumn]
    exact mapGet_mapSet_self _ _ _

/-- Witness for C10 at a concrete fresh model and unsupported criteria. -/
theorem C10_witness :
    (FilterModel.setCriteria gen0 wsS mS 0 (some cBad) false).2
        = some "[FilterModel]: other types of filters are not supported yet." ∧
    (FilterModel.setCriteria gen0 wsS mS 0 (some cBad) false).1.getFilterColumn 0
      = some { criteria := cBad
               range := some rS
               columnOffset := 0 } :=
  C10_setCriteria_not_atomic gen0 wsS mS 0 cBad rS false rfl (by decide) rfl rfl rfl

/-- The single emission also preserves the merged invariant. -/
theorem inv_emit_only (m : FilterModel) (h : mergedMatchesCacheUnion m) :
    mergedMatchesCacheUnion m.emit := h

/-- Contains form of the insertion sort membership. -/
theorem sortBy_contains (le : Nat → Nat → Bool) (l : List Nat) (x : Nat) :
    (sortBy le l).contains x = l.contains x := by
  rw [contains_eq_decide, contains_eq_decide]
  simp [mem_sortBy]

/-- Claim C1 evaluation at the failing input: on the concrete model whose
    column at offset 1 matches every cell of sheet column 1, a setRange with
    the very same range followed by a recalculation excludes rows 2 and 3,
    because recalculation reads the undefined cells of sheet column 2 (the
    offset is applied a second time to the propagated start column) and
    starts at row 2 (the header adjustment is applied a second time as
    well); the claimed evaluation of rows 1 to 3 at sheet column 1 would
    exclude nothing. -/
theorem C1_setRange_reCalc_eval :
    (FilterModel.setCriteria gen0 wsC1 mC1a 1 (some cC1) true).2 = none ∧
    mC1b.alreadyFilteredOutRows = [] ∧
    (FilterModel.reCalcOp wsC1 mC1c).2 = none ∧
    (FilterModel.reCalcOp wsC1 mC1c).1.alreadyFilteredOutRows = [2, 3] :=
  ⟨rfl, rfl, rfl, rfl⟩

/-- Claim C4 evaluation at the failing input: deserializing cached excluded
    rows 2 and 10 and serializing again emits the cached rows in the default
    JS sort order, 10 before 2, not in ascending numeric order; the column
    records themselves are sorted by offset with a numeric comparator. -/
theorem C4_serialize_sort_eval :
    (FilterModel.deserialize gen0 afC4).2 = none ∧
    (FilterModel.deserialize gen0 afC4).1.serialize
      = some ⟨⟨0, 10, 0, 0⟩, some [], some [10, 2]⟩ :=
  ⟨rfl, rfl⟩

/-- Claim C6: deserializing the serialization of a model that has a range
    set (the serialization fails without one) yields a model whose
    isRowFiltered answers agree with the original on every row, in
    particular on every row of the range; deserialization performs no
    recalculation, it only replays setCriteriaWithoutReCalc and restores
    the persisted cached excluded rows. -/
theorem C6_serialize_deserialize_roundtrip (gen : ICustomFilter → FilterFn)
    (m : FilterModel) (af : IAutoFilter) (m2 : FilterModel)
    (h1 : m.serialize = some af)
    (h2 : FilterModel.deserialize gen af = (m2, none)) :
    ∀ row, m2.isRowFiltered row = m.isRowFiltered row := by
  intro row
  rcases hR : m.range with _ | r
  · simp only [FilterModel.serialize, hR] at h1
    exact Option.noConfusion h1
  · simp only [FilterModel.serialize, hR] at h1
    injection h1 with haf
    subst haf
    simp only [FilterModel.deserialize, Option.getD_some] at h2
    rcases hgo : FilterModel.dumpGo gen
        ((sortBy (fun p q => decide (p.1 ≤ q.1)) m.filterColumnByOffset).map
          (fun p => p.2.serializeOp))
        (FilterModel.setRange { } r) with ⟨md, err⟩
    rw [hgo] at h2
    cases err with
    | some e => simp at h2
    | none =>
      simp only [] at h2
      have hm2 : (FilterModel.emit { md with alreadyFilteredOutRows :=
          (sortBy jsStrLe m.alreadyFilteredOutRows).foldl setAdd [] }).emitHasCriteria = m2 :=
        congrArg Prod.fst h2
      rw [← hm2]
      show ((sortBy jsStrLe m.alreadyFilteredOutRows).foldl setAdd []).contains row
        = m.alreadyFilteredOutRows.contains row
      rw [show (sortBy jsStrLe m.alreadyFilteredOutRows).foldl setAdd []
          = mergeSets [] (sortBy jsStrLe m.alreadyFilteredOutRows) from rfl]
      rw [mergeSets_contains, sortBy_contains]
      simp

/-- Witness for C6 at a concrete one-column model with one cached row. -/
theorem C6_witness :
    (FilterModel.deserialize gen0 afC6).1.isRowFiltered 5 = mC6.isRowFiltered 5 :=
  C6_serialize_deserialize_roundtrip gen0 mC6 afC6
    (FilterModel.deserialize gen0 afC6).1 rfl rfl 5

/-- Claim C2 (amended): after a criteria removal, a setCriteria with the
    reCalc flag set, or a full reCalc completes normally, the merged
    excluded row set has exactly the members of the union of the cached
    excluded row sets of the columns that currently have a cache; a
    setCriteria with the reCalc flag unset leaves the merged set unchanged,
    even though it invalidates the cache of the target column, so the union
    equality can fail there until a later rebuild. -/
theorem C2_merged_union (gen : ICustomFilter → FilterFn) (ws : Worksheet) (m : FilterModel)
    (col : Nat) (c : IFilterColumn) (r : IRange)
    (hnd : keysNodup m) (hr : m.range = some r) :
    (∀ b m2, FilterModel.setCriteria gen ws m col none b = (m2, none) →
      mergedMatchesCacheUnion m2) ∧
    (∀ m2, FilterModel.setCriteria gen ws m col (some c) true = (m2, none) →
      mergedMatchesCacheUnion m2) ∧
    (∀ m2, FilterModel.reCalcOp ws m = (m2, none) → mergedMatchesCacheUnion m2) ∧
    (∀ m2, FilterModel.setCriteria gen ws m col (some c) false = (m2, none) →
      m2.alreadyFilteredOutRows = m.alreadyFilteredOutRows) := by
  refine ⟨?_, ?_, ?_, ?_⟩
  · intro b m2 h
    simp only [FilterModel.setCriteria, hr] at h
    have hm2 : (((m.removeCriteria col).rebuildAlreadyFilteredOutRowsWithCache).emit).emitHasCriteria
        = m2 := congrArg Prod.fst h
    rw [← hm2]
    exact inv_emits _ (rebuild_inv _)
  · intro m2 h
    simp only [FilterModel.setCriteria, hr] at h
    rcases hs : FilterModel.setCriteriaWithoutReCalc gen m col c with ⟨m1, err1⟩
    rw [hs] at h
    cases err1 with
    | some e => simp at h
    | none =>
      simp only [if_true] at h
      rcases hs2 : FilterModel.reCalcWithNoCacheColumns ws
          m1.rebuildAlreadyFilteredOutRowsWithCache with ⟨m3, err2⟩
      rw [hs2] at h
      cases err2 with
      | some e => simp at h
      | none =>
        have hm2 : ((m3.emit).emitHasCriteria) = m2 := congrArg Prod.fst h
        rw [← hm2]
        apply inv_emits
        have hnd1 : keysNodup m1 := by
          have hk := setCriteriaWithoutReCalc_keysNodup gen m col c hnd
          rw [hs] at hk
          exact hk
        have hs2b : FilterModel.reCalcNoCacheGo ws
            (((m1.rebuildAlreadyFilteredOutRowsWithCache).filterColumnByOffset.filter
              (fun p => !p.2.hasCache)).map (fun p => p.1))
            m1.rebuildAlreadyFilteredOutRowsWithCache = (m3, none) := hs2
        exact reCalcNoCacheGo_inv ws
          (((m1.rebuildAlreadyFilteredOutRowsWithCache).filterColumnByOffset.filter
            (fun p => !p.2.hasCache)).map (fun p => p.1))
          (m1.rebuildAlreadyFilteredOutRowsWithCache) m3
          (snapshot_nodup _ hnd1)
          (snapshot_uncached _ hnd1)
          (rebuild_inv m1) hs2b
  · intro m2 h
    simp only [FilterModel.reCalcOp] at h
    rcases hs : FilterModel.reCalcAllColumns ws m with ⟨m3, err⟩
    rw [hs] at h
    cases err with
    | some e => simp at h
    | none =>
      have hm2 : m3.emit = m2 := congrArg Prod.fst h
      rw [← hm2]
      apply inv_emit_only
      have hndc : ((m.filterColumnByOffset.map fun p => (p.1, p.2.clearCache)).map
          fun p => p.1).Nodup := by
        rw [keys_cleared]
        exact hnd
      have hsb : FilterModel.reCalcNoCacheGo ws
          ((((m.filterColumnByOffset.map fun p => (p.1, p.2.clearCache)).filter
            (fun p => !p.2.hasCache)).map (fun p => p.1)))
          { m with
            alreadyFilteredOutRows := [],
            filterColumnByOffset := m.filterColumnByOffset.map fun p => (p.1, p.2.clearCache) }
          = (m3, none) := hs
      refine reCalcNoCacheGo_inv ws
        ((((m.filterColumnByOffset.map fun p => (p.1, p.2.clearCache)).filter
          (fun p => !p.2.hasCache)).map (fun p => p.1)))
        { m with
          alreadyFilteredOutRows := [],
          filterColumnByOffset := m.filterColumnByOffset.map fun p => (p.1, p.2.clearCache) }
        m3
        (snapshot_nodup _ hndc)
        (fun off _ fc hget => mapGet_cleared _ off fc hget)
        ?_ hsb
      intro row
      show ([] : List Nat).contains row
        = (m.filterColumnByOffset.map fun p => (p.1, p.2.clearCache)).any
            fun p => p.2.cacheHas row
      rw [any_cleared]
      rfl
  · intro m2 h
    simp only [FilterModel.setCriteria, hr] at h
    rcases hs : FilterModel.setCriteriaWithoutReCalc gen m col c with ⟨m1, err1⟩
    rw [hs] at h
    cases err1 with
    | some e => simp at h
    | none =>
      simp only [if_false] at h
      have hm2 : m1 = m2 := congrArg Prod.fst h
      rw [← hm2]
      have hme := setCriteriaWithoutReCalc_merged gen m col c
      rw [hs] at hme
      exact hme

/-- Counterexample to claim C2 as frozen: on a one-column model whose only
    column has cached excluded row 1, a setCriteria with the reCalc flag
    unset completes normally, invalidates the cache, and leaves row 1 in
    the merged set while the union of the cached sets is empty. -/
theorem C2_counterexample :
    (FilterModel.setCriteria gen0 wsS mS 0 (some cS) true).2 = none ∧
    (FilterModel.setCriteria gen0 wsS mS1 0 (some cS) false).2 = none ∧
    (FilterModel.setCriteria gen0 wsS mS1 0 (some cS) false).1.alreadyFilteredOutRows.contains 1
      = true ∧
    cacheUnionMem (FilterModel.setCriteria gen0 wsS mS1 0 (some cS) false).1 1 = false := by
  decide

/-- Witness for C2 at a concrete fresh model: after setCriteria with
    recalculation, membership of row 1 in the merged set agrees with the
    union of the caches. -/
theorem C2_witness :
    (FilterModel.setCriteria gen0 wsS mS 0 (some cS) true).1.alreadyFilteredOutRows.contains 1
      = cacheUnionMem (FilterModel.setCriteria gen0 wsS mS 0 (some cS) true).1 1 :=
  (C2_merged_union gen0 wsS mS 0 cS rS
      (by show (mS.filterColumnByOffset.map Prod.fst).Nodup; decide) rfl).2.1
    (FilterModel.setCriteria gen0 wsS mS 0 (some cS) true).1 rfl 1

/-- Claim C3 (amended): after a criteria removal, a setCriteria with the
    reCalc flag set, or a deserialization completes normally, the current
    value observed by hasCriteria subscribers is true exactly when the
    column map is non-empty; a completed setCriteria with the reCalc flag
    unset does not emit, so the observed value keeps its previous state and
    the equivalence can fail there. -/
theorem C3_hasCriteria (gen : ICustomFilter → FilterFn) (ws : Worksheet) (m : FilterModel)
    (col : Nat) (c : IFilterColumn) (r : IRange) (b : Bool)
    (hr : m.range = some r) :
    (∀ m2, FilterModel.setCriteria gen ws m col none b = (m2, none) →
      m2.hasCriteriaVal = !m2.filterColumnByOffset.isEmpty) ∧
    (∀ m2, FilterModel.setCriteria gen ws m col (some c) true = (m2, none) →
      m2.hasCriteriaVal = !m2.filterColumnByOffset.isEmpty) ∧
    (∀ af m2, FilterModel.deserialize gen af = (m2, none) →
      m2.hasCriteriaVal = !m2.filterColumnByOffset.isEmpty) ∧
    (∀ m2, FilterModel.setCriteria gen ws m col (some c) false = (m2, none) →
      m2.hasCriteriaVal = m.hasCriteriaVal) := by
  refine ⟨?_, ?_, ?_, ?_⟩
  · intro m2 h
    simp only [FilterModel.setCriteria, hr] at h
    have hm2 : (((m.removeCriteria col).rebuildAlreadyFilteredOutRowsWithCache).emit).emitHasCriteria
        = m2 := congrArg Prod.fst h
    rw [← hm2]
    rfl
  · intro m2 h
    simp only [FilterModel.setCriteria, hr] at h
    rcases hs : FilterModel.setCriteriaWithoutReCalc gen m col c with ⟨m1, err1⟩
    rw [hs] at h
    cases err1 with
    | some e => simp at h
    | none =>
      simp only [if_true] at h
      rcases hs2 : FilterModel.reCalcWithNoCacheColumns ws
          m1.rebuildAlreadyFilteredOutRowsWithCache with ⟨m3, err2⟩
      rw [hs2] at h
      cases err2 with
      | some e => simp at h
      | none =>
        have hm2 : ((m3.emit).emitHasCriteria) = m2 := congrArg Prod.fst h
        rw [← hm2]
        rfl
  · intro af m2 h
    simp only [FilterModel.deserialize] at h
    rcases hgo : FilterModel.dumpGo gen (af.filterColumns.getD [])
        (FilterModel.setRange { } af.ref) with ⟨md, err⟩
    rw [hgo] at h
    cases err with
    | some e => simp at h
    | none =>
      cases hcf : af.cachedFilteredOut with
      | some rows =>
        rw [hcf] at h
        have hm2 : (FilterModel.emit { md with
            alreadyFilteredOutRows := rows.foldl setAdd [] }).emitHasCriteria = m2 :=
          congrArg Prod.fst h
        rw [← hm2]
        rfl
      | none =>
        rw [hcf] at h
        have hm2 : md.emitHasCriteria = m2 := congrArg Prod.fst h
        rw [← hm2]
        rfl
  · intro m2 h
    simp only [FilterModel.setCriteria, hr] at h
    rcases hs : FilterModel.setCriteriaWithoutReCalc gen m col c with ⟨m1, err1⟩
    rw [hs] at h
    cases err1 with
    | some e => simp at h
    | none =>
      simp only [if_false] at h
      have hm2 : m1 = m2 := congrArg Prod.fst h
      rw [← hm2]
      have hhc := setCriteriaWithoutReCalc_hasCriteriaVal gen m col c
      rw [hs] at hhc
      exact hhc

/-- Counterexample to claim C3 as frozen: a completed setCriteria with the
    reCalc flag unset adds the first column yet does not emit, so the
    observed hasCriteria value stays false while the column map is
    non-empty. -/
theorem C3_counterexample :
    (FilterModel.setCriteria gen0 wsS mS 0 (some cS) false).2 = none ∧
    (FilterModel.setCriteria gen0 wsS mS 0 (some cS) false).1.hasCriteriaVal = false ∧
    (FilterModel.setCriteria gen0 wsS mS 0 (some cS) false).1.filterColumnByOffset.isEmpty
      = false := by
  decide

/-- Witness for C3 at a concrete fresh model: a removal emits the flag in
    agreement with the emptiness of the map. -/
theorem C3_witness :
    (FilterModel.setCriteria gen0 wsS mS 0 none true).1.hasCriteriaVal
      = !(FilterModel.setCriteria gen0 wsS mS 0 none true).1.filterColumnByOffset.isEmpty :=
  (C3_hasCriteria gen0 wsS mS 0 cS rS true rfl).1
    (FilterModel.setCriteria gen0 wsS mS 0 none true).1 rfl
